import Mathlib

/-!
Verification of the ai-sessions session-adapter core (Go sources under src/).

Shallow embedding conventions:
* Go `string` is Lean `String`; Go string primitives (`strings.TrimSpace`,
  `strings.Split`, `strings.Join`, lexicographic comparison used by
  `sort.Strings`) are re-implemented structurally over `String.data`
  so that every definition evaluates inside the kernel.
* Go `time.Time` is its `UnixMilli` value as an `Int`; the zero `time.Time`
  (the value for which `IsZero()` is true) is `goZeroTimeMillis`, which is
  distinct from the Unix epoch `0`.
* Go `int` is `Int`; Go integer division truncates toward zero, which is
  `Int.tdiv`.
* Filesystem and database effects are modelled as explicit inputs: a scan of
  files becomes a list of `(path, parse result)` pairs where a `none` parse
  result stands for an unreadable or malformed record, and a fallible backend
  attempt becomes an `Except String` value or function supplied to the caller
  under test.
-/

/-- `time.Time{}.UnixMilli()` in Go: the zero `time.Time` (year 1) expressed in
milliseconds since the Unix epoch.  `IsZero()` is modelled as equality with
this constant; the Unix epoch itself is `0` and is *not* the zero time. -/
def goZeroTimeMillis : Int := -62135596800000

/-- Byte/codepoint-lexicographic `≤` on character lists; UTF-8 byte order used
by Go's `sort.Strings` coincides with codepoint order, which this computes. -/
def charLe (a b : List Char) : Bool :=
  match a, b with
  | [], _ => true
  | _ :: _, [] => false
  | a :: as, b :: bs => if a < b then true else if b < a then false else charLe as bs

/-- Go string comparison `a <= b` as used by `sort.Strings`. -/
def goStrLe (a b : String) : Bool := charLe a.data b.data

/-- Go `strings.TrimSpace`: drop leading and trailing whitespace. -/
def goTrimSpace (s : String) : String :=
  ⟨((s.data.dropWhile Char.isWhitespace).reverse.dropWhile Char.isWhitespace).reverse⟩

/-- Go `strings.Split(s, sep)` for a one-character separator, on char lists. -/
def splitChar (sep : Char) : List Char → List (List Char)
  | [] => [[]]
  | c :: cs =>
    if c = sep then [] :: splitChar sep cs
    else
      match splitChar sep cs with
      | [] => [[c]]
      | l :: ls => (c :: l) :: ls

/-- Go `strings.Join(l, "\n")` (`strings.Join` with a newline separator). -/
def joinWithNewline : List String → String
  | [] => ""
  | [s] => s
  | s :: rest => s ++ "\n" ++ joinWithNewline rest

/-- `extractFirstLine` (src/unnamed/part_002 lines 513-526, also used by the
copilot and mistral adapters): first line whose trim is non-empty, truncated
to 200 characters plus an ellipsis.  Go truncates at 200 *bytes*; this model
truncates at 200 characters, a divergence only for multi-byte text that no
verified claim depends on. -/
def extractFirstLine (text : String) : String :=
  let lines := (splitChar '\n' text.data).map (fun l => (⟨l⟩ : String))
  let rec firstNonEmpty : List String → String
    | [] => ""
    | line :: rest =>
      let trimmed := goTrimSpace line
      if trimmed = "" then firstNonEmpty rest
      else if trimmed.length > 200 then ⟨trimmed.data.take 200⟩ ++ "..." else trimmed
  firstNonEmpty lines

/-! ## Normalized data model (src: adapters Session / Message)

`Session` and `Message` keep the fields the verified claims reference;
`Message.Metadata`, the part-type counters and the non-text part payloads are
not referenced by any claim and are omitted from the embedding. -/

/-- Normalized `Session` record produced by every adapter. -/
structure Session where
  id : String
  source : String
  projectPath : String
  firstMessage : String
  summary : String
  timestamp : Int
  filePath : String
  userMessageCount : Nat
deriving Repr, DecidableEq

/-- Normalized `Message` record (claim-relevant fields). -/
structure Message where
  role : String
  content : String
  timestamp : Int
deriving Repr, DecidableEq

/-! ## Pagination resolver (src/unnamed/part_002 lines 796-812) -/

/-- `resolvePage` (src/unnamed/part_002 lines 796-812).  Go's `/` on `int`
truncates toward zero, hence `Int.tdiv`. -/
def resolvePage (page pageSize totalMessages : Int) (fromEnd : Bool) : Int :=
  if !fromEnd then page
  else if totalMessages = 0 then 0
  else
    let lastPage := (totalMessages - 1).tdiv pageSize
    let resolvedPage := lastPage - page
    if resolvedPage < 0 then -1 else resolvedPage

/-! ## opencode message content model (src/unnamed/part_002 lines 90-108, 450-511)

A stored part is a JSON object; the adapter only inspects its `"type"` and
`"text"` fields, so a part is modelled by those two optional fields.  Message
`content` is dynamically shaped: a plain string, a list of parts, a single
part object, or anything else (ignored). -/

/-- A content part: the `"type"` and `"text"` fields of the part object. -/
structure OCPart where
  typeField : Option String
  textField : Option String
deriving Repr, DecidableEq

/-- Dynamically-shaped `content` of an `opencodeMessage`. -/
inductive OCContent where
  | str (s : String)
  | parts (l : List OCPart)
  | single (p : OCPart)
  | absent
deriving Repr, DecidableEq

/-- A parsed `opencodeMessage` file (claim-relevant fields: `role`, `content`,
`time.created`; `none` created means the `"time"` object or its `"created"`
field is missing/non-numeric). -/
structure OCMsgFile where
  role : String
  content : OCContent
  created : Option Int
deriving Repr, DecidableEq

/-- `getPartType` (src/unnamed/part_002 lines 500-511). -/
def getPartType (p : OCPart) : String :=
  match p.typeField with
  | some t => if goTrimSpace t = "" then (if p.textField.isSome then "text" else "unknown") else t
  | none => if p.textField.isSome then "text" else "unknown"

/-- Text-part contribution of `addPartToSummary` (src/unnamed/part_002 lines
482-498): a part of type `"text"` contributes its text when the trimmed text
is non-empty. -/
def partTextContribution (p : OCPart) : List String :=
  if getPartType p = "text" then
    match p.textField with
    | some s => if goTrimSpace s = "" then [] else [s]
    | none => []
  else []

/-- `TextParts` accumulated by `summarizeMessageContent` (src/unnamed/part_002
lines 456-480). -/
def summarizeTextParts (c : OCContent) : List String :=
  match c with
  | .str s => if goTrimSpace s = "" then [] else [s]
  | .parts l => l.foldr (fun p acc => partTextContribution p ++ acc) []
  | .single p => partTextContribution p
  | .absent => []

/-- `extractMessageContent` (src/unnamed/part_002 lines 450-454): the text
parts joined by newlines. -/
def extractMessageContent (c : OCContent) : String :=
  joinWithNewline (summarizeTextParts c)

/-- Conversion of one parsed message file to a normalized `Message` inside
`OpencodeAdapter.readAllMessages` (src/unnamed/part_002 lines 892-929): the
timestamp comes from `time.created` and otherwise stays the zero time. -/
def ocFileMessage (m : OCMsgFile) : Message :=
  { role := m.role
    content := extractMessageContent m.content
    timestamp := match m.created with | some c => c | none => goZeroTimeMillis }

/-- Filename order on `(path, parse result)` entries: Go `sort.Strings`. -/
def fileNameLe (a b : String × Option OCMsgFile) : Prop :=
  charLe a.1.data b.1.data = true

instance : DecidableRel fileNameLe := fun a b =>
  inferInstanceAs (Decidable (charLe a.1.data b.1.data = true))

/-- `OpencodeAdapter.readAllMessages` (src/unnamed/part_002 lines 871-933):
glob the session's message files, sort them by filename, and convert each
readable, well-formed one; a `none` parse result (unreadable or malformed
file) is skipped. -/
def OpencodeAdapter.readAllMessages (files : List (String × Option OCMsgFile)) : List Message :=
  (List.insertionSort fileNameLe files).filterMap (fun f => f.2.map ocFileMessage)

/-- `OpencodeAdapter.readAllMessages` with the source filename retained next
to each produced message (verification helper used to state in which order
the legacy backend returns messages). -/
def readAllMessagesNamed (files : List (String × Option OCMsgFile)) : List (String × Message) :=
  (List.insertionSort fileNameLe files).filterMap (fun f => f.2.map (fun m => (f.1, ocFileMessage m)))

/-! ## SQLite message query model (src/unnamed/part_002 lines 560-716)

The `message` table is a list of rows; `ORDER BY time_created ASC, id ASC`
is modelled by sorting with the corresponding lexicographic order, and
`LIMIT pageSize OFFSET offset` by `drop`/`take` on the ordered rows. -/

/-- One row of the `message` table (`id`, `session_id`, `time_created`, plus
the `$.role` field extracted from its JSON `data`). -/
structure MsgRow where
  id : String
  sessionId : String
  timeCreated : Int
  role : Option String
deriving Repr, DecidableEq

/-- `ORDER BY time_created ASC, id ASC` as a relation on rows. -/
def sqliteRowLe (a b : MsgRow) : Prop :=
  a.timeCreated < b.timeCreated ∨ (a.timeCreated = b.timeCreated ∧ charLe a.id.data b.id.data = true)

instance : DecidableRel sqliteRowLe := fun a b =>
  inferInstanceAs (Decidable
    (a.timeCreated < b.timeCreated ∨
      (a.timeCreated = b.timeCreated ∧ charLe a.id.data b.id.data = true)))

/-- The row sequence produced by the paging query of
`getSessionPageFromSQLite` (src/unnamed/part_002 lines 590-596) before
`LIMIT`/`OFFSET`: the session's rows ordered by `(time_created, id)`. -/
def sqliteMessageQuery (table : List MsgRow) (sessionID : String) : List MsgRow :=
  List.insertionSort sqliteRowLe (table.filter (fun r => r.sessionId = sessionID))

/-- `getSessionPageFromSQLite` (src/unnamed/part_002 lines 560-692) with the
database effects resolved: the window of ordered rows for one page, the total
count, the resolved page, and the has-more flag.  (The conversion of each row
to a `Message` is order- and length-preserving and not modelled.) -/
def getSessionPageFromSQLite (table : List MsgRow) (sessionID : String)
    (page pageSize : Int) (fromEnd : Bool) : List MsgRow × Int × Int × Bool :=
  let ordered := sqliteMessageQuery table sessionID
  let totalMessages : Int := ordered.length
  let resolvedPage := resolvePage page pageSize totalMessages fromEnd
  if resolvedPage < 0 then ([], totalMessages, resolvedPage, false)
  else
    let offset := resolvedPage * pageSize
    if totalMessages ≤ offset then ([], totalMessages, resolvedPage, false)
    else
      let msgs := (ordered.drop offset.toNat).take pageSize.toNat
      (msgs, totalMessages, resolvedPage, decide (offset + (msgs.length : Int) < totalMessages))

/-- The pagination step of `getSessionPageFromFiles` (src/unnamed/part_002
lines 847-867), applied to the already-read message list: Go's
`messages[start:end]` with `end` clipped to the length. -/
def paginateMessages (messages : List Message) (page pageSize : Int) (fromEnd : Bool) :
    List Message × Int × Int × Bool :=
  let totalMessages : Int := messages.length
  let resolvedPage := resolvePage page pageSize totalMessages fromEnd
  if resolvedPage < 0 then ([], totalMessages, resolvedPage, false)
  else
    let start := resolvedPage * pageSize
    if totalMessages ≤ start then ([], totalMessages, resolvedPage, false)
    else
      let stop := min (start + pageSize) totalMessages
      let window := (messages.drop start.toNat).take (stop - start).toNat
      (window, totalMessages, resolvedPage, decide (stop < totalMessages))

/-- `OpencodeAdapter.getSessionPageFromFiles` (src/unnamed/part_002 lines
833-868): read every message file of the session, then paginate. -/
def OpencodeAdapter.getSessionPageFromFiles (files : List (String × Option OCMsgFile))
    (page pageSize : Int) (fromEnd : Bool) : List Message × Int × Int × Bool :=
  paginateMessages (OpencodeAdapter.readAllMessages files) page pageSize fromEnd

/-! ## Forward-only GetSession of the copilot and mistral adapters

Both slice the fully-read message list with `start := page * pageSize` and
`end := start + pageSize` clipped to the length (src/unnamed/part_001 lines
287-299; src/adapters/mistral.go lines 236-246).  Go would panic on a
negative `start`; every call site passes a non-negative page (the tool
handler clamps), and the theorems about these definitions carry that bound
as a hypothesis. -/

/-- `CopilotAdapter.GetSession` pagination (src/unnamed/part_001 lines 287-299),
applied to the messages read from the session file. -/
def CopilotAdapter.GetSession (messages : List Message) (page pageSize : Int) : List Message :=
  let start := page * pageSize
  if (messages.length : Int) ≤ start then []
  else
    let stop := min (start + pageSize) (messages.length : Int)
    (messages.drop start.toNat).take (stop - start).toNat

/-- `MistralAdapter.GetSession` pagination (src/adapters/mistral.go lines
236-246); identical windowing to the copilot adapter. -/
def MistralAdapter.GetSession (messages : List Message) (page pageSize : Int) : List Message :=
  let start := page * pageSize
  if (messages.length : Int) ≤ start then []
  else
    let stop := min (start + pageSize) (messages.length : Int)
    (messages.drop start.toNat).take (stop - start).toNat

/-! ## opencode dual-backend resolution (src/unnamed/part_002 lines 112-124, 539-558, 936-948)

The sqlite and legacy-file attempts perform I/O; each attempt is supplied as
an `Except String` value (or, for `GetSessionPage`, as a function of the
arguments the method passes on) whose `error` case covers every failure mode
of that backend (store absent, open failure, query error, session missing). -/

/-- The combined error message of `OpencodeAdapter.ListSessions`
(src/unnamed/part_002 line 123). -/
def combinedListError (e fe : String) : String :=
  "failed to list opencode sessions via sqlite (" ++ e ++ ") and file fallback (" ++ fe ++ ")"

/-- The combined error message of `OpencodeAdapter.GetSessionPage`
(src/unnamed/part_002 line 557). -/
def combinedGetError (e fe : String) : String :=
  "failed to get opencode session via sqlite (" ++ e ++ ") and file fallback (" ++ fe ++ ")"

/-- The combined error message of `OpencodeAdapter.SearchSessions`
(src/unnamed/part_002 line 947). -/
def combinedSearchError (e fe : String) : String :=
  "failed to search opencode sessions via sqlite (" ++ e ++ ") and file fallback (" ++ fe ++ ")"

/-- `OpencodeAdapter.ListSessions` (src/unnamed/part_002 lines 112-124):
canonical sqlite attempt first, whole fallback to the legacy file store,
combined error when both fail. -/
def OpencodeAdapter.ListSessions (sqliteAttempt fileAttempt : Except String (List Session)) :
    Except String (List Session) :=
  match sqliteAttempt with
  | .ok sessions => .ok sessions
  | .error err =>
    match fileAttempt with
    | .ok fallbackSessions => .ok fallbackSessions
    | .error fallbackErr => .error (combinedListError err fallbackErr)

/-- `OpencodeAdapter.SearchSessions` (src/unnamed/part_002 lines 936-948). -/
def OpencodeAdapter.SearchSessions (sqliteAttempt fileAttempt : Except String (List Session)) :
    Except String (List Session) :=
  match sqliteAttempt with
  | .ok found => .ok found
  | .error err =>
    match fileAttempt with
    | .ok fallbackMatches => .ok fallbackMatches
    | .error fallbackErr => .error (combinedSearchError err fallbackErr)

/-- Page-index normalization of `OpencodeAdapter.GetSessionPage`
(src/unnamed/part_002 lines 540-542). -/
def normalizePageArg (page : Int) : Int := if page < 0 then 0 else page

/-- Page-size normalization of `OpencodeAdapter.GetSessionPage`
(src/unnamed/part_002 lines 543-545). -/
def normalizePageSizeArg (pageSize : Int) : Int := if pageSize ≤ 0 then 20 else pageSize

/-- The result quadruple of a `GetSessionPage` backend attempt. -/
def GetPageResult := List Message × Int × Int × Bool

/-- `OpencodeAdapter.GetSessionPage` (src/unnamed/part_002 lines 539-558):
normalize the page and page size, try the sqlite backend, fall back entirely
to the legacy file backend, and combine both errors when both fail.  The two
backends are supplied as functions of the `(sessionID, page, pageSize,
fromEnd)` arguments the method passes on. -/
def OpencodeAdapter.GetSessionPage (sessionID : String) (page pageSize : Int) (fromEnd : Bool)
    (sqliteBackend fileBackend : String → Int → Int → Bool → Except String GetPageResult) :
    Except String GetPageResult :=
  let page := normalizePageArg page
  let pageSize := normalizePageSizeArg pageSize
  match sqliteBackend sessionID page pageSize fromEnd with
  | .ok r => .ok r
  | .error err =>
    match fileBackend sessionID page pageSize fromEnd with
    | .ok r => .ok r
    | .error fallbackErr => .error (combinedGetError err fallbackErr)

/-- `OpencodeAdapter.GetSession` (src/unnamed/part_002 lines 529-535): the
forward-only view of `GetSessionPage`. -/
def OpencodeAdapter.GetSession (sessionID : String) (page pageSize : Int)
    (sqliteBackend fileBackend : String → Int → Int → Bool → Except String GetPageResult) :
    Except String (List Message) :=
  match OpencodeAdapter.GetSessionPage sessionID page pageSize false sqliteBackend fileBackend with
  | .ok r => .ok r.1
  | .error e => .error e

/-! ## get_session tool handler (src/cmd/ai-sessions/main.go lines 329-422) -/

/-- The handler's argument normalization (src/cmd/ai-sessions/main.go lines
346-351): a page size equal to zero becomes 20, a negative page becomes 0. -/
def getSessionToolPageArgs (page pageSize : Int) : Int × Int :=
  let pageSize := if pageSize = 0 then 20 else pageSize
  let page := if page < 0 then 0 else page
  (page, pageSize)

/-- The handler's non-paginating branch (src/cmd/ai-sessions/main.go lines
366-381): fetch one extra message to detect a further page, then truncate to
the page size.  Returns the messages and the has-more flag. -/
def getSessionToolFetchNonPaginated (fetch : Int → Int → List Message)
    (page pageSize : Int) : List Message × Bool :=
  let args := getSessionToolPageArgs page pageSize
  let fetched := fetch args.1 (args.2 + 1)
  if args.2 < (fetched.length : Int) then (fetched.take args.2.toNat, true) else (fetched, false)

/-- The handler's paginating branch (src/cmd/ai-sessions/main.go lines
361-365): pass the normalized arguments through and return the page result
unchanged. -/
def getSessionToolPaginated (paginator : Int → Int → Bool → List Message × Int × Int × Bool)
    (page pageSize : Int) (fromEnd : Bool) : List Message × Int × Int × Bool :=
  let args := getSessionToolPageArgs page pageSize
  paginator args.1 args.2 fromEnd

/-! ## Session listing (src/unnamed/part_001 lines 98-148,
src/adapters/mistral.go lines 85-135, src/unnamed/part_002 lines 252-321)

All three listings share the same tail: sort the collected sessions newest
first (`sort.Slice` with `Timestamp.After`) and apply the limit (`limit > 0`
caps the result, `limit = 0` leaves it unbounded).  Per-file parsing is an
effect; each candidate file enters the model as an `Option Session`
(`none` = unreadable or malformed, skipped by the loop). -/

/-- Newest-first order: `sort.Slice` with the `Timestamp.After` comparator
guarantees pairwise non-increasing timestamps. -/
def sessDesc (a b : Session) : Prop := b.timestamp ≤ a.timestamp

instance : DecidableRel sessDesc := fun a b =>
  inferInstanceAs (Decidable (b.timestamp ≤ a.timestamp))

/-- The newest-first sort shared by the listings. -/
def sessionsNewestFirst (sessions : List Session) : List Session :=
  List.insertionSort sessDesc sessions

/-- The limit step shared by the listings: `if limit > 0 && len(sessions) >
limit { sessions = sessions[:limit] }`. -/
def applyLimit (limit : Int) (sessions : List Session) : List Session :=
  if 0 < limit ∧ limit < (sessions.length : Int) then sessions.take limit.toNat else sessions

/-- The project filter of the listings: keep a session unless a project path
is given and differs from the session's. -/
def passesProjectFilter (projectPath : String) (s : Session) : Bool :=
  projectPath = "" || s.projectPath = projectPath

/-- `CopilotAdapter.ListSessions` (src/unnamed/part_001 lines 98-148):
glob the session files (a missing directory yields the empty listing), skip
files that fail to parse, filter by project path, sort newest first, apply
the limit. -/
def CopilotAdapter.ListSessions (dirExists : Bool) (parsed : List (Option Session))
    (projectPath : String) (limit : Int) : List Session :=
  if !dirExists then []
  else
    applyLimit limit (sessionsNewestFirst
      ((parsed.filterMap id).filter (passesProjectFilter projectPath)))

/-- `MistralAdapter.ListSessions` (src/adapters/mistral.go lines 85-135):
the same glob / parse-or-skip / filter / sort / limit pipeline over
`session_*.json` files. -/
def MistralAdapter.ListSessions (dirExists : Bool) (parsed : List (Option Session))
    (projectPath : String) (limit : Int) : List Session :=
  if !dirExists then []
  else
    applyLimit limit (sessionsNewestFirst
      ((parsed.filterMap id).filter (passesProjectFilter projectPath)))

/-! ## opencode legacy flat-file listing (src/unnamed/part_002 lines 252-448) -/

/-- A parsed `ses_*.json` session file (claim-relevant fields; `time.Created`
is 0 when the JSON omits it, Go's zero value). -/
structure OCSessionFile where
  id : String
  title : String
  created : Int
deriving Repr, DecidableEq

/-- One candidate session file of a project directory, together with the
outcome of the side scan `getFirstUserMessageAndCount` performed for it
(that scan reads other files; its result enters the listing model as data,
with `("", 0)` standing for its error case, src/unnamed/part_002 lines
387-391). -/
structure OCSessionEntry where
  filePath : String
  parsed : Option OCSessionFile
  firstMessage : String
  userCount : Nat
deriving Repr, DecidableEq

/-- One directory under `storage/session/` with its project metadata:
`worktree = none` models an unreadable or malformed project file, or a failed
session glob — both skipped with `continue` (src/unnamed/part_002 lines
296-305). -/
structure OCProjectDir where
  projectID : String
  worktree : Option String
  sessionFiles : List OCSessionEntry
deriving Repr, DecidableEq

/-- The `Session` built by `listProjectSessions` for one parsed session file
(src/unnamed/part_002 lines 393-402): the timestamp is
`time.UnixMilli(sess.Time.Created)` with no fallback of any kind. -/
def ocToSession (worktree : String) (entry : OCSessionEntry) (s : OCSessionFile) : Session :=
  { id := s.id
    source := "opencode"
    projectPath := worktree
    firstMessage := entry.firstMessage
    summary := s.title
    timestamp := s.created
    filePath := entry.filePath
    userMessageCount := entry.userCount }

/-- `listProjectSessions` (src/unnamed/part_002 lines 367-408): convert each
readable, well-formed session file, skipping the rest. -/
def listProjectSessions (worktree : String) (entries : List OCSessionEntry) : List Session :=
  entries.filterMap (fun e => e.parsed.map (ocToSession worktree e))

/-- `OpencodeAdapter.listSessionsFromFiles` (src/unnamed/part_002 lines
252-321): a missing storage directory yields the empty listing; with a
project filter, `targetProjectID` is the matched project id (the caller
returns `[]` before this point when no project matches); project directories
whose metadata cannot be loaded are skipped; the collected sessions are
sorted newest first and limited. -/
def ocCollectSessions (targetProjectID : String) (projectDirs : List OCProjectDir) :
    List Session :=
  projectDirs.foldr
    (fun d acc =>
      (if targetProjectID ≠ "" ∧ d.projectID ≠ targetProjectID then []
       else
         match d.worktree with
         | none => []
         | some wt => listProjectSessions wt d.sessionFiles) ++ acc) []

def OpencodeAdapter.listSessionsFromFiles (storageExists : Bool) (targetProjectID : String)
    (projectDirs : List OCProjectDir) (limit : Int) : List Session :=
  if !storageExists then []
  else applyLimit limit (sessionsNewestFirst (ocCollectSessions targetProjectID projectDirs))

/-! ## copilot JSONL event model (src/unnamed/part_001 lines 37-94, 150-248) -/

/-- One line of a copilot session JSONL file after parsing.  A line whose
JSON (or whose `data` payload) fails to parse is skipped by every consumer
and is modelled as `unparsed`.  `sessionStart` carries the parse result of
its `startTime` (RFC3339, as Unix milliseconds); `sessionInfo` carries the
project path captured by the folder-trust regex, if any. -/
inductive CopilotEvent where
  | sessionStart (sessionID : String) (startTime : Option Int)
  | sessionInfo (folderTrustPath : Option String)
  | userMessage (content : String)
  | assistantMessage (content : String)
  | toolExecutionStart (path : Option String)
  | toolExecutionComplete (content : String)
  | unparsed
deriving Repr, DecidableEq

/-- The timestamp accumulated by the event loop of
`CopilotAdapter.parseSessionMetadata` (src/unnamed/part_001 lines 182-191):
each parseable `session.start` time overwrites it, starting from the zero
time. -/
def copilotStartTimestamp (events : List CopilotEvent) : Int :=
  events.foldl
    (fun ts e =>
      match e with
      | .sessionStart _ (some t) => t
      | _ => ts) goZeroTimeMillis

/-- The `Session.Timestamp` produced by `CopilotAdapter.parseSessionMetadata`
(src/unnamed/part_001 lines 182-191 and 234-239): the session-start time when
parsed, else the backing file's modification time. -/
def CopilotAdapter.parseSessionMetadataTimestamp (events : List CopilotEvent)
    (mtimeMillis : Int) : Int :=
  let ts := copilotStartTimestamp events
  if ts = goZeroTimeMillis then mtimeMillis else ts

/-- The `Session.UserMessageCount` produced by
`CopilotAdapter.parseSessionMetadata` (src/unnamed/part_001 lines 204-211,
227): every parseable `user.message` event increments the count, regardless
of its content. -/
def CopilotAdapter.parseSessionMetadataUserCount (events : List CopilotEvent) : Nat :=
  events.foldl
    (fun n e =>
      match e with
      | .userMessage _ => n + 1
      | _ => n) 0

/-! ## mistral session model (src/adapters/mistral.go lines 36-81, 137-195) -/

/-- One message of a mistral session file (claim-relevant fields). -/
structure MistralMsg where
  role : String
  content : String
deriving Repr, DecidableEq

/-- The `Session.Timestamp` produced by `MistralAdapter.parseSessionMetadata`
(src/adapters/mistral.go lines 156-178): `startTimeParsed` is the first
successful parse of `metadata.start_time` among the tried formats (`none`
when the field is empty or no format matches); otherwise the backing file's
modification time. -/
def MistralAdapter.parseSessionMetadataTimestamp (startTimeParsed : Option Int)
    (mtimeMillis : Int) : Int :=
  let ts := match startTimeParsed with | some t => t | none => goZeroTimeMillis
  if ts = goZeroTimeMillis then mtimeMillis else ts

/-- The `Session.UserMessageCount` produced by
`MistralAdapter.parseSessionMetadata` (src/adapters/mistral.go lines
180-192): every message with role `"user"` increments the count, regardless
of its content. -/
def MistralAdapter.parseSessionMetadataUserCount (msgs : List MistralMsg) : Nat :=
  msgs.foldl (fun n m => if m.role = "user" then n + 1 else n) 0

/-! ## opencode first-user-message scan (src/unnamed/part_002 lines 410-448) -/

/-- `OpencodeAdapter.getFirstUserMessageAndCount` (src/unnamed/part_002 lines
410-448): walk the session's message files in filename order, skip unreadable
or malformed ones, and for each user message with non-empty extracted content
bump the count and remember the first line of the first such message. -/
def OpencodeAdapter.getFirstUserMessageAndCount
    (files : List (String × Option OCMsgFile)) : String × Nat :=
  (List.insertionSort fileNameLe files).foldl
    (fun acc f =>
      match f.2 with
      | none => acc
      | some msg =>
        if msg.role = "user" then
          let content := extractMessageContent msg.content
          if content ≠ "" then
            (if acc.1 = "" then extractFirstLine content else acc.1, acc.2 + 1)
          else acc
        else acc) ("", 0)

/-! ## opencode sqlite user-message count (src/unnamed/part_002 lines 210-249) -/

/-- One row of the `part` table with the JSON fields the count query
extracts (`json_extract(data, ...)` yields SQL NULL, here `none`, when a
field is absent). -/
structure PartRow where
  id : String
  messageId : String
  timeCreated : Int
  typeField : Option String
  textField : Option String
deriving Repr, DecidableEq

/-- SQL `trim(COALESCE(json_extract(p.data, $.text), '')) <> ''`. -/
def sqlTrimmedTextNonEmpty (textField : Option String) : Bool :=
  goTrimSpace (textField.getD "") != ""

/-- The `JOIN part p ON p.message_id = m.id` of the count query, over the row
lists. -/
def sqliteJoin (messages : List MsgRow) (parts : List PartRow) : List (MsgRow × PartRow) :=
  messages.foldr
    (fun m acc => ((parts.filter (fun p => p.messageId == m.id)).map (fun p => (m, p))) ++ acc) []

/-- The `WHERE` clause of the count query, on one joined `(message, part)`
pair: the session matches, the message role is `user`, the part type is
`text` and the part's trimmed text is non-empty. -/
def sqlitePairPred (sessionID : String) (mp : MsgRow × PartRow) : Bool :=
  mp.1.sessionId == sessionID && mp.1.role == some "user" &&
    mp.2.typeField == some "text" && sqlTrimmedTextNonEmpty mp.2.textField

/-- The user-message count computed by
`getFirstUserMessageAndCountFromSQLite` (src/unnamed/part_002 lines 228-241):
`COUNT(DISTINCT m.id)` over the join of `message` and `part` restricted to
the session's user messages with a non-empty trimmed text part.  The join,
the filter and the distinct count are modelled over the row lists. -/
def OpencodeAdapter.sqliteUserMessageCount (messages : List MsgRow) (parts : List PartRow)
    (sessionID : String) : Nat :=
  ((((sqliteJoin messages parts).filter (sqlitePairPred sessionID)).map
    (fun mp => mp.1.id)).dedup).length

/-! ## Search index cache

Modelled from the spec: the `search` package (`search.Cache` with
`NeedsReindex`, `IndexSession`, `Search`) is consumed by
src/cmd/ai-sessions/main.go but its source is not under src/.  Following
§4.4/§6 of the spec, the cache is a durable store of per-session documents
keyed by session identifier; `IndexSession` upserts the document for its
session id, atomically replacing any prior entry; `Search` is a deterministic
ranking query over the stored documents (term-frequency scoring stands in
for BM25, whose constants the spec leaves as unfixed tool defaults), filtered
by source/project and truncated to the limit, each match carrying the raw
session, the score and a snippet around the first token match. -/

/-- One indexed document of the cache, keyed by `sessionID`. -/
structure CacheDoc where
  sessionID : String
  session : Session
  fullText : String
deriving Repr, DecidableEq

/-- Modelled from the spec: the queryable content of the search cache. -/
abbrev Cache := List CacheDoc

/-- Modelled from the spec: `IndexSession(session, fullText)` upserts the
document keyed by `session.id`, atomically replacing any prior entry for
that key. -/
def Cache.IndexSession (cache : Cache) (s : Session) (fullText : String) : Cache :=
  ⟨s.id, s, fullText⟩ :: cache.filter (fun d => d.sessionID ≠ s.id)

/-- Lower-casing used before matching query tokens. -/
def lowerStr (s : String) : String := ⟨s.data.map Char.toLower⟩

/-- Whitespace tokenization of a query or document text. -/
def tokenize (s : String) : List String :=
  (splitChar ' ' (lowerStr s).data).filterMap
    (fun w => if w = [] then none else some (⟨w⟩ : String))

/-- Term-frequency score of one document against the query tokens. -/
def scoreDoc (queryTokens : List String) (text : String) : Nat :=
  (tokenize text).countP (fun w => queryTokens.contains w)

/-- Go `strings.Join(l, " ")`, used to render a snippet window. -/
def joinWithSpace : List String → String
  | [] => ""
  | [s] => s
  | s :: rest => s ++ " " ++ joinWithSpace rest

/-- Modelled from the spec: a short excerpt centered on the first token
match, with an ellipsis marker when clipped. -/
def snippetOf (queryTokens : List String) (text : String) : String :=
  let toks := tokenize text
  match toks.findIdx? (fun w => queryTokens.contains w) with
  | none => ""
  | some i =>
    let first := i - 2
    let window := (toks.drop first).take 5
    if first + 5 < toks.length then joinWithSpace window ++ "..." else joinWithSpace window

/-- One ranked search match. -/
structure SearchResult where
  session : Session
  score : Nat
  snippet : String
deriving Repr, DecidableEq

/-- Descending score order of the ranked matches. -/
def scoreDesc (a b : SearchResult) : Prop := b.score ≤ a.score

instance : DecidableRel scoreDesc := fun a b =>
  inferInstanceAs (Decidable (b.score ≤ a.score))

/-- Modelled from the spec: `Search(query, sourceFilter, projectFilter,
limit)` scores the stored documents that pass the filters, ranks them by
descending score and truncates to the limit. -/
def Cache.Search (cache : Cache) (query sourceFilter projectFilter : String)
    (limit : Int) : List SearchResult :=
  let qt := tokenize query
  let eligible := cache.filter
    (fun d =>
      (sourceFilter = "" ∨ d.session.source = sourceFilter) ∧
        (projectFilter = "" ∨ d.session.projectPath = projectFilter))
  let scored := eligible.filterMap
    (fun d =>
      let sc := scoreDoc qt d.fullText
      if sc = 0 then none else some (⟨d.session, sc, snippetOf qt d.fullText⟩ : SearchResult))
  let ranked := List.insertionSort scoreDesc scored
  if 0 < limit ∧ limit < (ranked.length : Int) then ranked.take limit.toNat else ranked

/-! ## Spec-side comparison definitions

These follow the words of the spec, not the source, and exist only to be
compared with the source-derived definitions above. -/

/-- Spec §3: the number of user-role events whose content is non-empty after
trimming, for the copilot event model. -/
def specCopilotNonEmptyUserCount (events : List CopilotEvent) : Nat :=
  events.countP
    (fun e =>
      match e with
      | .userMessage c => goTrimSpace c != ""
      | _ => false)

/-- Spec §3 invariant: the message sequence is totally ordered by creation
time. -/
def sortedByCreationTime (l : List Message) : Prop :=
  List.Sorted (fun a b => a.timestamp ≤ b.timestamp) l

instance (l : List Message) : Decidable (sortedByCreationTime l) :=
  inferInstanceAs (Decidable (List.Pairwise _ l))

/-- Whether any event is a `session.start` whose `startTime` parses
(src/unnamed/part_001 lines 182-191). -/
def hasParsedSessionStart (events : List CopilotEvent) : Bool :=
  events.any
    (fun e =>
      match e with
      | .sessionStart _ (some _) => true
      | _ => false)

/-- Concrete `message` rows realizing the spec's worked example: session
`ses_demo` holds five messages `[u1, a1, u2, a2, u3]` with creation times
1000..5000, stored out of order to exercise the `ORDER BY`; a row of another
session exercises the `WHERE session_id` filter. -/
def c1MessageTable : List MsgRow :=
  [⟨"msg_4", "ses_demo", 4000, some "assistant"⟩,
   ⟨"msg_1", "ses_demo", 1000, some "user"⟩,
   ⟨"msg_9", "other_session", 500, some "user"⟩,
   ⟨"msg_5", "ses_demo", 5000, some "user"⟩,
   ⟨"msg_2", "ses_demo", 2000, some "assistant"⟩,
   ⟨"msg_3", "ses_demo", 3000, some "user"⟩]

/-! ## Order lemmas for the sorting relations -/

theorem charLe_total : ∀ a b : List Char, charLe a b = true ∨ charLe b a = true := by
  intro a
  induction a with
  | nil => intro b; left; simp [charLe]
  | cons x xs ih =>
    intro b
    cases b with
    | nil => right; simp [charLe]
    | cons y ys =>
      rcases lt_trichotomy x y with h | h | h
      · left; simp [charLe, h]
      · subst h
        rcases ih ys with h2 | h2
        · left; simp [charLe, h2]
        · right; simp [charLe, h2]
      · right; simp [charLe, h]

theorem charLe_trans :
    ∀ a b c : List Char, charLe a b = true → charLe b c = true → charLe a c = true := by
  intro a
  induction a with
  | nil => intro b c _ _; simp [charLe]
  | cons x xs ih =>
    intro b c hab hbc
    cases b with
    | nil => simp [charLe] at hab
    | cons y ys =>
      cases c with
      | nil => simp [charLe] at hbc
      | cons z zs =>
        rcases lt_trichotomy x y with hxy | hxy | hxy
        · rcases lt_trichotomy y z with hyz | hyz | hyz
          · simp [charLe, lt_trans hxy hyz]
          · subst hyz; simp [charLe, hxy]
          · simp [charLe, hyz, asymm hyz] at hbc
        · subst hxy
          rcases lt_trichotomy x z with hyz | hyz | hyz
          · simp [charLe, hyz]
          · subst hyz
            simp only [charLe, lt_irrefl, if_false] at hab hbc ⊢
            exact ih ys zs hab hbc
          · simp [charLe, hyz, asymm hyz] at hbc
        · simp [charLe, hxy, asymm hxy] at hab

instance : IsTotal (String × Option OCMsgFile) fileNameLe :=
  ⟨fun a b => charLe_total a.1.data b.1.data⟩

instance : IsTrans (String × Option OCMsgFile) fileNameLe :=
  ⟨fun _ _ _ hab hbc => charLe_trans _ _ _ hab hbc⟩

instance : IsTotal MsgRow sqliteRowLe := by
  constructor
  intro a b
  rcases lt_trichotomy a.timeCreated b.timeCreated with h | h | h
  · exact Or.inl (Or.inl h)
  · rcases charLe_total a.id.data b.id.data with h2 | h2
    · exact Or.inl (Or.inr ⟨h, h2⟩)
    · exact Or.inr (Or.inr ⟨h.symm, h2⟩)
  · exact Or.inr (Or.inl h)

instance : IsTrans MsgRow sqliteRowLe := by
  constructor
  intro a b c hab hbc
  rcases hab with h1 | ⟨h1, h1'⟩
  · rcases hbc with h2 | ⟨h2, _⟩
    · exact Or.inl (lt_trans h1 h2)
    · exact Or.inl (h2 ▸ h1)
  · rcases hbc with h2 | ⟨h2, h2'⟩
    · exact Or.inl (h1 ▸ h2)
    · exact Or.inr ⟨h1.trans h2, charLe_trans _ _ _ h1' h2'⟩

instance : IsTotal Session sessDesc := ⟨fun a b => le_total b.timestamp a.timestamp⟩

instance : IsTrans Session sessDesc := ⟨fun _ _ _ hab hbc => le_trans hbc hab⟩

/-! ## Claim theorems -/

/-- Claim C3: with zero total messages the reverse resolver returns page 0
unconditionally, for every page index and page size. -/
theorem C3_reverse_resolver_zero_total :
    ∀ page pageSize : Int, resolvePage page pageSize 0 true = 0 := by
  intro page pageSize
  simp [resolvePage]

/-- Claim C1: for reverse pagination with a positive total `T`, page `P ≥ 0`
and page size `S ≥ 1`, the resolver computes `lastPage = floor((T-1)/S)` and
`resolvedPage = lastPage - P`; a negative resolved page yields the empty
window with `hasMore = false` and `resolvedPage = -1`.  On the worked
example of 5 ordered messages with page size 2: page 0 resolves to page 2
and returns only the last message with no more pages, pages 1 and 2 return
the preceding pairs with more pages available, and page 3 is out of range. -/
theorem C1_reverse_pagination (messages : List Message) (page pageSize : Int)
    (hpage : 0 ≤ page) (hsize : 1 ≤ pageSize) (htotal : 1 ≤ (messages.length : Int)) :
    (resolvePage page pageSize (messages.length : Int) true =
      (if ((messages.length : Int) - 1) / pageSize - page < 0 then -1
       else ((messages.length : Int) - 1) / pageSize - page))
    ∧ (((messages.length : Int) - 1) / pageSize - page < 0 →
        paginateMessages messages page pageSize true =
          ([], (messages.length : Int), -1, false))
    ∧ getSessionPageFromSQLite c1MessageTable "ses_demo" 0 2 true =
        ([⟨"msg_5", "ses_demo", 5000, some "user"⟩], 5, 2, false)
    ∧ getSessionPageFromSQLite c1MessageTable "ses_demo" 1 2 true =
        ([⟨"msg_3", "ses_demo", 3000, some "user"⟩,
          ⟨"msg_4", "ses_demo", 4000, some "assistant"⟩], 5, 1, true)
    ∧ getSessionPageFromSQLite c1MessageTable "ses_demo" 2 2 true =
        ([⟨"msg_1", "ses_demo", 1000, some "user"⟩,
          ⟨"msg_2", "ses_demo", 2000, some "assistant"⟩], 5, 0, true)
    ∧ getSessionPageFromSQLite c1MessageTable "ses_demo" 3 2 true = ([], 5, -1, false) := by
  have hT0 : ¬((messages.length : Int) = 0) := by omega
  have htd : ((messages.length : Int) - 1).tdiv pageSize =
      ((messages.length : Int) - 1) / pageSize :=
    Int.tdiv_eq_ediv (by omega) (by omega)
  have hres : resolvePage page pageSize (messages.length : Int) true =
      (if ((messages.length : Int) - 1) / pageSize - page < 0 then -1
       else ((messages.length : Int) - 1) / pageSize - page) := by
    simp only [resolvePage, Bool.not_true, Bool.false_eq_true, if_false, hT0, htd]
  refine ⟨hres, ?_, by decide, by decide, by decide, by decide⟩
  intro hneg
  have h1 : resolvePage page pageSize (messages.length : Int) true = -1 := by
    rw [hres]; exact if_pos hneg
  simp only [paginateMessages, h1]
  norm_num

/-- Witness for C1 at a concrete out-of-range input. -/
theorem C1_reverse_pagination_witness :
    ((0 : Int) ≤ 5 ∧ (1 : Int) ≤ 1 ∧
        (1 : Int) ≤ (([⟨"user", "hi", 1000⟩] : List Message).length : Int)) ∧
      paginateMessages [⟨"user", "hi", 1000⟩] 5 1 true = ([], 1, -1, false) :=
  ⟨⟨by decide, by decide, by decide⟩,
    (C1_reverse_pagination [⟨"user", "hi", 1000⟩] 5 1 (by decide) (by decide)
      (by decide)).2.1 (by decide)⟩

/-- Claim C2: each opencode dual-backend operation (list, get-page, search)
returns the canonical sqlite result when that attempt succeeds, falls
through entirely to the legacy file result (unmerged) when the sqlite
attempt fails, and when both fail returns exactly one combined error in
which both underlying causes occur verbatim. -/
theorem C2_dual_backend_fallback :
    (∀ (v : List Session) (fileAttempt : Except String (List Session)),
        OpencodeAdapter.ListSessions (.ok v) fileAttempt = .ok v)
    ∧ (∀ (e : String) (w : List Session),
        OpencodeAdapter.ListSessions (.error e) (.ok w) = .ok w)
    ∧ (∀ e fe, OpencodeAdapter.ListSessions (.error e) (.error fe) =
        .error (combinedListError e fe))
    ∧ (∀ (v : List Session) (fileAttempt : Except String (List Session)),
        OpencodeAdapter.SearchSessions (.ok v) fileAttempt = .ok v)
    ∧ (∀ (e : String) (w : List Session),
        OpencodeAdapter.SearchSessions (.error e) (.ok w) = .ok w)
    ∧ (∀ e fe, OpencodeAdapter.SearchSessions (.error e) (.error fe) =
        .error (combinedSearchError e fe))
    ∧ (∀ (sid : String) (page pageSize : Int) (fromEnd : Bool) (r : GetPageResult)
        (fileBackend : String → Int → Int → Bool → Except String GetPageResult),
        OpencodeAdapter.GetSessionPage sid page pageSize fromEnd
          (fun _ _ _ _ => .ok r) fileBackend = .ok r)
    ∧ (∀ (sid : String) (page pageSize : Int) (fromEnd : Bool) (e : String) (r : GetPageResult),
        OpencodeAdapter.GetSessionPage sid page pageSize fromEnd
          (fun _ _ _ _ => .error e) (fun _ _ _ _ => .ok r) = .ok r)
    ∧ (∀ (sid : String) (page pageSize : Int) (fromEnd : Bool) (e fe : String),
        OpencodeAdapter.GetSessionPage sid page pageSize fromEnd
          (fun _ _ _ _ => .error e) (fun _ _ _ _ => .error fe) =
          .error (combinedGetError e fe))
    ∧ (∀ e fe, ∃ u v, combinedListError e fe = u ++ (e ++ v))
    ∧ (∀ e fe, ∃ u v, combinedListError e fe = u ++ (fe ++ v))
    ∧ (∀ e fe, ∃ u v, combinedGetError e fe = u ++ (e ++ v))
    ∧ (∀ e fe, ∃ u v, combinedGetError e fe = u ++ (fe ++ v))
    ∧ (∀ e fe, ∃ u v, combinedSearchError e fe = u ++ (e ++ v))
    ∧ (∀ e fe, ∃ u v, combinedSearchError e fe = u ++ (fe ++ v)) := by
  refine ⟨fun v fa => rfl, fun e w => rfl, fun e fe => rfl,
    fun v fa => rfl, fun e w => rfl, fun e fe => rfl,
    fun sid p s f r g => rfl, fun sid p s f e r => rfl, fun sid p s f e fe => rfl,
    fun e fe => ⟨"failed to list opencode sessions via sqlite (",
      ") and file fallback (" ++ fe ++ ")", by
        simp [combinedListError, String.append_assoc]⟩,
    fun e fe => ⟨"failed to list opencode sessions via sqlite (" ++ e ++ ") and file fallback (",
      ")", by simp [combinedListError, String.append_assoc]⟩,
    fun e fe => ⟨"failed to get opencode session via sqlite (",
      ") and file fallback (" ++ fe ++ ")", by
        simp [combinedGetError, String.append_assoc]⟩,
    fun e fe => ⟨"failed to get opencode session via sqlite (" ++ e ++ ") and file fallback (",
      ")", by simp [combinedGetError, String.append_assoc]⟩,
    fun e fe => ⟨"failed to search opencode sessions via sqlite (",
      ") and file fallback (" ++ fe ++ ")", by
        simp [combinedSearchError, String.append_assoc]⟩,
    fun e fe => ⟨"failed to search opencode sessions via sqlite (" ++ e ++ ") and file fallback (",
      ")", by simp [combinedSearchError, String.append_assoc]⟩⟩

/-- Length bound for a `l[start:stop]` window whose `stop` is at most
`start + pageSize`. -/
theorem goSliceLength_le {α : Type} (l : List α) (start stop pageSize : Int)
    (hstop : stop ≤ start + pageSize) (hps : 0 ≤ pageSize) :
    (((l.drop start.toNat).take (stop - start).toNat).length : Int) ≤ pageSize := by
  have h1 := List.length_take_le (stop - start).toNat (l.drop start.toNat)
  omega

/-- The legacy-file pagination window never exceeds the page size. -/
theorem paginateMessages_length_le (messages : List Message) (page pageSize : Int)
    (fromEnd : Bool) (hs : 1 ≤ pageSize) :
    (((paginateMessages messages page pageSize fromEnd).1).length : Int) ≤ pageSize := by
  unfold paginateMessages
  dsimp only
  split
  · simp; omega
  · split
    · simp; omega
    · exact goSliceLength_le messages _ _ pageSize (min_le_left _ _) (by omega)

/-- The sqlite pagination window never exceeds the page size. -/
theorem sqlitePage_length_le (table : List MsgRow) (sessionID : String)
    (page pageSize : Int) (fromEnd : Bool) (hs : 1 ≤ pageSize) :
    (((getSessionPageFromSQLite table sessionID page pageSize fromEnd).1).length : Int) ≤
      pageSize := by
  unfold getSessionPageFromSQLite
  dsimp only
  split
  · simp; omega
  · split
    · simp; omega
    · have h1 := List.length_take_le pageSize.toNat
        ((sqliteMessageQuery table sessionID).drop
          (resolvePage page pageSize ((sqliteMessageQuery table sessionID).length : Int) fromEnd *
              pageSize).toNat)
      simp only []
      omega

/-- Claim C4: for every adapter's `GetSession` / `GetSessionPage` and for the
`get_session` tool handler, with a non-negative page and a requested page
size `S ≥ 1`, the returned message window has length at most `S`. -/
theorem C4_page_size_bound :
    (∀ (messages : List Message) (page pageSize : Int), 0 ≤ page → 1 ≤ pageSize →
        ((CopilotAdapter.GetSession messages page pageSize).length : Int) ≤ pageSize)
    ∧ (∀ (messages : List Message) (page pageSize : Int), 0 ≤ page → 1 ≤ pageSize →
        ((MistralAdapter.GetSession messages page pageSize).length : Int) ≤ pageSize)
    ∧ (∀ (messages : List Message) (page pageSize : Int) (fromEnd : Bool), 1 ≤ pageSize →
        (((paginateMessages messages page pageSize fromEnd).1).length : Int) ≤ pageSize)
    ∧ (∀ (table : List MsgRow) (sessionID : String) (page pageSize : Int) (fromEnd : Bool),
        1 ≤ pageSize →
        (((getSessionPageFromSQLite table sessionID page pageSize fromEnd).1).length : Int) ≤
          pageSize)
    ∧ (∀ (fetch : Int → Int → List Message) (page pageSize : Int), 1 ≤ pageSize →
        (((getSessionToolFetchNonPaginated fetch page pageSize).1).length : Int) ≤ pageSize)
    ∧ (∀ (files : List (String × Option OCMsgFile)) (page pageSize : Int) (fromEnd : Bool),
        1 ≤ pageSize →
        (((getSessionToolPaginated
            (fun p s f => OpencodeAdapter.getSessionPageFromFiles files p s f)
            page pageSize fromEnd).1).length : Int) ≤ pageSize) := by
  refine ⟨?_, ?_, ?_, ?_, ?_, ?_⟩
  · intro messages page pageSize _hp hs
    unfold CopilotAdapter.GetSession
    dsimp only
    split
    · simp; omega
    · exact goSliceLength_le messages _ _ pageSize (min_le_left _ _) (by omega)
  · intro messages page pageSize _hp hs
    unfold MistralAdapter.GetSession
    dsimp only
    split
    · simp; omega
    · exact goSliceLength_le messages _ _ pageSize (min_le_left _ _) (by omega)
  · exact fun messages page pageSize fromEnd hs =>
      paginateMessages_length_le messages page pageSize fromEnd hs
  · exact fun table sessionID page pageSize fromEnd hs =>
      sqlitePage_length_le table sessionID page pageSize fromEnd hs
  · intro fetch page pageSize hs
    unfold getSessionToolFetchNonPaginated getSessionToolPageArgs
    dsimp only
    have hns : ¬(pageSize = 0) := by omega
    simp only [hns, if_false]
    by_cases hcond :
      pageSize < ((fetch (if page < 0 then 0 else page) (pageSize + 1)).length : Int)
    · rw [if_pos hcond]
      dsimp only
      have h1 := List.length_take_le pageSize.toNat
        (fetch (if page < 0 then 0 else page) (pageSize + 1))
      omega
    · rw [if_neg hcond]
      dsimp only
      omega
  · intro files page pageSize fromEnd hs
    unfold getSessionToolPaginated getSessionToolPageArgs OpencodeAdapter.getSessionPageFromFiles
    dsimp only
    have hns : ¬(pageSize = 0) := by omega
    simp only [hns, if_false]
    exact paginateMessages_length_le _ _ _ _ hs

/-- Witness for C4 at a concrete adapter call. -/
theorem C4_page_size_bound_witness :
    ((0 : Int) ≤ 0 ∧ (1 : Int) ≤ 2) ∧
      ((CopilotAdapter.GetSession
          [⟨"user", "a", 1⟩, ⟨"assistant", "b", 2⟩, ⟨"user", "c", 3⟩] 0 2).length : Int) ≤ 2 :=
  ⟨⟨by decide, by decide⟩,
    C4_page_size_bound.1 [⟨"user", "a", 1⟩, ⟨"assistant", "b", 2⟩, ⟨"user", "c", 3⟩] 0 2
      (by decide) (by decide)⟩

/-- Claim C5 (corrected): the sqlite backend returns every message window
sorted by `(time_created, id)` — creation time with the message identifier as
tie-break — while the legacy file backend returns messages in ascending
*filename* (message identifier) order, which need not follow the creation
times stored inside the files. -/
theorem C5_message_order_corrected :
    (∀ (table : List MsgRow) (sessionID : String) (page pageSize : Int) (fromEnd : Bool),
        List.Sorted sqliteRowLe (getSessionPageFromSQLite table sessionID page pageSize fromEnd).1)
    ∧ (∀ files, OpencodeAdapter.readAllMessages files = (readAllMessagesNamed files).map Prod.snd)
    ∧ (∀ files, List.Pairwise (fun x y : String × Message => charLe x.1.data y.1.data = true)
        (readAllMessagesNamed files)) := by
  refine ⟨?_, ?_, ?_⟩
  · intro table sessionID page pageSize fromEnd
    have hsorted : List.Sorted sqliteRowLe (sqliteMessageQuery table sessionID) := by
      unfold sqliteMessageQuery
      exact List.sorted_insertionSort sqliteRowLe _
    unfold getSessionPageFromSQLite
    dsimp only
    split
    · exact List.sorted_nil
    · split
      · exact List.sorted_nil
      · exact List.Pairwise.sublist
          ((List.take_sublist _ _).trans (List.drop_sublist _ _)) hsorted
  · intro files
    unfold OpencodeAdapter.readAllMessages readAllMessagesNamed
    rw [List.map_filterMap]
    congr 1
    funext f
    obtain ⟨name, parsed⟩ := f
    cases parsed <;> simp
  · intro files
    unfold readAllMessagesNamed
    rw [List.pairwise_filterMap]
    have hsorted : List.Pairwise fileNameLe (List.insertionSort fileNameLe files) :=
      List.sorted_insertionSort fileNameLe files
    refine List.Pairwise.imp ?_ hsorted
    intro a a' hle b hb b' hb'
    cases ha : a.2 with
    | none => rw [ha] at hb; simp at hb
    | some m =>
      cases ha' : a'.2 with
      | none => rw [ha'] at hb'; simp at hb'
      | some m' =>
        rw [ha] at hb
        rw [ha'] at hb'
        simp only [Option.map_some', Option.mem_def, Option.some.injEq] at hb hb'
        rw [← hb, ← hb']
        exact hle

/-- Counterexample to claim C5 as stated: a legacy session whose filename
order disagrees with the stored creation times yields a message sequence
that is not ordered by creation time. -/
theorem C5_counterexample_legacy_file_order :
    ¬ sortedByCreationTime (OpencodeAdapter.readAllMessages
      [("msg_b.json", some ⟨"assistant", OCContent.str "earlier", some 1000⟩),
       ("msg_a.json", some ⟨"user", OCContent.str "later", some 2000⟩)]) := by
  decide

/-- The newest-first sort is sorted. -/
theorem sessionsNewestFirst_sorted (l : List Session) :
    List.Sorted sessDesc (sessionsNewestFirst l) :=
  List.sorted_insertionSort sessDesc l

/-- The limit step preserves sortedness. -/
theorem applyLimit_sorted (limit : Int) (l : List Session) (h : List.Sorted sessDesc l) :
    List.Sorted sessDesc (applyLimit limit l) := by
  unfold applyLimit
  split
  · exact List.Pairwise.sublist (List.take_sublist _ _) h
  · exact h

/-- Limit `0` means unbounded. -/
theorem applyLimit_zero (l : List Session) : applyLimit 0 l = l := by
  unfold applyLimit
  simp

/-- A positive limit caps the listing length. -/
theorem applyLimit_length_le (limit : Int) (l : List Session) (h : 0 < limit) :
    ((applyLimit limit l).length : Int) ≤ limit := by
  unfold applyLimit
  split
  · have h1 := List.length_take_le limit.toNat l
    omega
  · rename_i hc
    omega

/-- The legacy opencode collector distributes over directory concatenation. -/
theorem ocCollectSessions_append (tid : String) (dirs1 dirs2 : List OCProjectDir) :
    ocCollectSessions tid (dirs1 ++ dirs2) =
      ocCollectSessions tid dirs1 ++ ocCollectSessions tid dirs2 := by
  induction dirs1 with
  | nil => rfl
  | cons d ds ih =>
    unfold ocCollectSessions at *
    simp only [List.cons_append, List.foldr_cons]
    rw [ih, List.append_assoc]

/-- Claim C6: every listing returns sessions newest first; limit `0` means
unbounded (the result is a permutation of all eligible sessions) while a
positive limit caps the length; and a per-item parse failure — an unreadable
or malformed session record, or for opencode an unreadable project record —
is skipped without affecting the rest of the listing. -/
theorem C6_list_sessions :
    (∀ (dirExists : Bool) (parsed : List (Option Session)) (projectPath : String) (limit : Int),
        List.Sorted sessDesc (CopilotAdapter.ListSessions dirExists parsed projectPath limit))
    ∧ (∀ (dirExists : Bool) (parsed : List (Option Session)) (projectPath : String) (limit : Int),
        List.Sorted sessDesc (MistralAdapter.ListSessions dirExists parsed projectPath limit))
    ∧ (∀ (storageExists : Bool) (targetProjectID : String) (dirs : List OCProjectDir)
        (limit : Int),
        List.Sorted sessDesc
          (OpencodeAdapter.listSessionsFromFiles storageExists targetProjectID dirs limit))
    ∧ (∀ parsed projectPath,
        (CopilotAdapter.ListSessions true parsed projectPath 0).Perm
          ((parsed.filterMap id).filter (passesProjectFilter projectPath)))
    ∧ (∀ parsed projectPath,
        (MistralAdapter.ListSessions true parsed projectPath 0).Perm
          ((parsed.filterMap id).filter (passesProjectFilter projectPath)))
    ∧ (∀ targetProjectID dirs,
        (OpencodeAdapter.listSessionsFromFiles true targetProjectID dirs 0).Perm
          (ocCollectSessions targetProjectID dirs))
    ∧ (∀ (dirExists : Bool) (parsed : List (Option Session)) (projectPath : String)
        (limit : Int), 0 < limit →
        ((CopilotAdapter.ListSessions dirExists parsed projectPath limit).length : Int) ≤ limit)
    ∧ (∀ (dirExists : Bool) (parsed : List (Option Session)) (projectPath : String)
        (limit : Int), 0 < limit →
        ((MistralAdapter.ListSessions dirExists parsed projectPath limit).length : Int) ≤ limit)
    ∧ (∀ (storageExists : Bool) (targetProjectID : String) (dirs : List OCProjectDir)
        (limit : Int), 0 < limit →
        ((OpencodeAdapter.listSessionsFromFiles storageExists targetProjectID dirs
            limit).length : Int) ≤ limit)
    ∧ (∀ (dirExists : Bool) (l1 l2 : List (Option Session)) (projectPath : String) (limit : Int),
        CopilotAdapter.ListSessions dirExists (l1 ++ none :: l2) projectPath limit =
          CopilotAdapter.ListSessions dirExists (l1 ++ l2) projectPath limit)
    ∧ (∀ (dirExists : Bool) (l1 l2 : List (Option Session)) (projectPath : String) (limit : Int),
        MistralAdapter.ListSessions dirExists (l1 ++ none :: l2) projectPath limit =
          MistralAdapter.ListSessions dirExists (l1 ++ l2) projectPath limit)
    ∧ (∀ (storageExists : Bool) (targetProjectID : String) (dirs1 dirs2 : List OCProjectDir)
        (pid : String) (wt : Option String) (es1 es2 : List OCSessionEntry)
        (path fm : String) (uc : Nat) (limit : Int),
        OpencodeAdapter.listSessionsFromFiles storageExists targetProjectID
            (dirs1 ++ (⟨pid, wt, es1 ++ ⟨path, none, fm, uc⟩ :: es2⟩ : OCProjectDir) :: dirs2)
            limit =
          OpencodeAdapter.listSessionsFromFiles storageExists targetProjectID
            (dirs1 ++ (⟨pid, wt, es1 ++ es2⟩ : OCProjectDir) :: dirs2) limit)
    ∧ (∀ (storageExists : Bool) (targetProjectID : String) (dirs1 dirs2 : List OCProjectDir)
        (pid : String) (es : List OCSessionEntry) (limit : Int),
        OpencodeAdapter.listSessionsFromFiles storageExists targetProjectID
            (dirs1 ++ (⟨pid, none, es⟩ : OCProjectDir) :: dirs2) limit =
          OpencodeAdapter.listSessionsFromFiles storageExists targetProjectID
            (dirs1 ++ dirs2) limit) := by
  refine ⟨?_, ?_, ?_, ?_, ?_, ?_, ?_, ?_, ?_, ?_, ?_, ?_, ?_⟩
  · intro de parsed pf lim
    unfold CopilotAdapter.ListSessions
    split
    · exact List.sorted_nil
    · exact applyLimit_sorted _ _ (sessionsNewestFirst_sorted _)
  · intro de parsed pf lim
    unfold MistralAdapter.ListSessions
    split
    · exact List.sorted_nil
    · exact applyLimit_sorted _ _ (sessionsNewestFirst_sorted _)
  · intro se tid dirs lim
    unfold OpencodeAdapter.listSessionsFromFiles
    split
    · exact List.sorted_nil
    · exact applyLimit_sorted _ _ (sessionsNewestFirst_sorted _)
  · intro parsed pf
    unfold CopilotAdapter.ListSessions
    simp only [Bool.not_true, Bool.false_eq_true, if_false, applyLimit_zero]
    exact List.perm_insertionSort sessDesc _
  · intro parsed pf
    unfold MistralAdapter.ListSessions
    simp only [Bool.not_true, Bool.false_eq_true, if_false, applyLimit_zero]
    exact List.perm_insertionSort sessDesc _
  · intro tid dirs
    unfold OpencodeAdapter.listSessionsFromFiles
    simp only [Bool.not_true, Bool.false_eq_true, if_false, applyLimit_zero]
    exact List.perm_insertionSort sessDesc _
  · intro de parsed pf lim hlim
    unfold CopilotAdapter.ListSessions
    split
    · simp; omega
    · exact applyLimit_length_le _ _ hlim
  · intro de parsed pf lim hlim
    unfold MistralAdapter.ListSessions
    split
    · simp; omega
    · exact applyLimit_length_le _ _ hlim
  · intro se tid dirs lim hlim
    unfold OpencodeAdapter.listSessionsFromFiles
    split
    · simp; omega
    · exact applyLimit_length_le _ _ hlim
  · intro de l1 l2 pf lim
    cases de <;> simp [CopilotAdapter.ListSessions, List.filterMap_append]
  · intro de l1 l2 pf lim
    cases de <;> simp [MistralAdapter.ListSessions, List.filterMap_append]
  · intro se tid dirs1 dirs2 pid wt es1 es2 path fm uc lim
    have hcol :
        ocCollectSessions tid
            (dirs1 ++ (⟨pid, wt, es1 ++ ⟨path, none, fm, uc⟩ :: es2⟩ : OCProjectDir) :: dirs2) =
          ocCollectSessions tid (dirs1 ++ (⟨pid, wt, es1 ++ es2⟩ : OCProjectDir) :: dirs2) := by
      rw [ocCollectSessions_append, ocCollectSessions_append]
      simp only [ocCollectSessions, List.foldr_cons]
      congr 1
      congr 1
      split
      · rfl
      · cases wt
        · rfl
        · simp [listProjectSessions, List.filterMap_append]
    unfold OpencodeAdapter.listSessionsFromFiles
    rw [hcol]
  · intro se tid dirs1 dirs2 pid es lim
    have hcol :
        ocCollectSessions tid (dirs1 ++ (⟨pid, none, es⟩ : OCProjectDir) :: dirs2) =
          ocCollectSessions tid (dirs1 ++ dirs2) := by
      rw [ocCollectSessions_append, ocCollectSessions_append]
      simp only [ocCollectSessions, List.foldr_cons]
      congr 1
      have hhead :
          (if tid ≠ "" ∧ pid ≠ tid then ([] : List Session)
           else match (none : Option String) with
             | none => []
             | some wt => listProjectSessions wt es) = [] := by
        split
        · rfl
        · rfl
      rw [hhead]
      rfl
    unfold OpencodeAdapter.listSessionsFromFiles
    rw [hcol]

/-- Witness for C6 at a concrete positive limit. -/
theorem C6_list_sessions_witness :
    (0 : Int) < 1 ∧
      ((CopilotAdapter.ListSessions true
          [some ⟨"s1", "copilot", "", "", "", 10, "/f1", 1⟩, none,
           some ⟨"s2", "copilot", "", "", "", 20, "/f2", 1⟩] "" 1).length : Int) ≤ 1 :=
  ⟨by decide,
    (C6_list_sessions.2.2.2.2.2.2.1) true
      [some ⟨"s1", "copilot", "", "", "", 10, "/f1", 1⟩, none,
       some ⟨"s2", "copilot", "", "", "", 20, "/f2", 1⟩] "" 1 (by decide)⟩

/-- Without any parseable `session.start` event the accumulated copilot
timestamp stays at its initial value. -/
theorem copilotStartTimestamp_of_no_start (events : List CopilotEvent)
    (h : hasParsedSessionStart events = false) :
    copilotStartTimestamp events = goZeroTimeMillis := by
  unfold copilotStartTimestamp
  suffices hgen : ∀ (l : List CopilotEvent), hasParsedSessionStart l = false → ∀ init : Int,
      l.foldl
        (fun ts e =>
          match e with
          | CopilotEvent.sessionStart _ (some t) => t
          | _ => ts) init = init from hgen events h goZeroTimeMillis
  intro l
  induction l with
  | nil => intro _ init; rfl
  | cons e es ih =>
    intro hl init
    unfold hasParsedSessionStart at hl
    rw [List.any_cons] at hl
    rcases Bool.or_eq_false_iff.mp hl with ⟨h1, h2⟩
    have h2' : hasParsedSessionStart es = false := h2
    rw [List.foldl_cons]
    cases e with
    | sessionStart sid st =>
      cases st with
      | none => exact ih h2' init
      | some t => simp at h1
    | sessionInfo x => exact ih h2' init
    | userMessage x => exact ih h2' init
    | assistantMessage x => exact ih h2' init
    | toolExecutionStart x => exact ih h2' init
    | toolExecutionComplete x => exact ih h2' init
    | unparsed => exact ih h2' init

/-- Claim C7 (corrected): the copilot and mistral listings fall back to the
backing file's modification time when no native timestamp parses, and that
fallback is neither the zero time nor the epoch whenever the file's
modification time is a positive instant; the opencode legacy listing instead
uses `time.created` directly, with no modification-time fallback. -/
theorem C7_timestamp_fallback_corrected :
    (∀ (events : List CopilotEvent) (mtimeMillis : Int),
        hasParsedSessionStart events = false →
        CopilotAdapter.parseSessionMetadataTimestamp events mtimeMillis = mtimeMillis)
    ∧ (∀ (events : List CopilotEvent) (mtimeMillis : Int), 0 < mtimeMillis →
        hasParsedSessionStart events = false →
        CopilotAdapter.parseSessionMetadataTimestamp events mtimeMillis ≠ 0 ∧
          CopilotAdapter.parseSessionMetadataTimestamp events mtimeMillis ≠ goZeroTimeMillis)
    ∧ (∀ mtimeMillis : Int,
        MistralAdapter.parseSessionMetadataTimestamp none mtimeMillis = mtimeMillis)
    ∧ (∀ mtimeMillis : Int, 0 < mtimeMillis →
        MistralAdapter.parseSessionMetadataTimestamp none mtimeMillis ≠ 0 ∧
          MistralAdapter.parseSessionMetadataTimestamp none mtimeMillis ≠ goZeroTimeMillis)
    ∧ (∀ (worktree : String) (entry : OCSessionEntry) (s : OCSessionFile),
        (ocToSession worktree entry s).timestamp = s.created) := by
  have hcop : ∀ (events : List CopilotEvent) (mtimeMillis : Int),
      hasParsedSessionStart events = false →
      CopilotAdapter.parseSessionMetadataTimestamp events mtimeMillis = mtimeMillis := by
    intro events mtime h
    unfold CopilotAdapter.parseSessionMetadataTimestamp
    rw [copilotStartTimestamp_of_no_start events h]
    simp
  have hmis : ∀ mtimeMillis : Int,
      MistralAdapter.parseSessionMetadataTimestamp none mtimeMillis = mtimeMillis := by
    intro mtime
    simp [MistralAdapter.parseSessionMetadataTimestamp]
  refine ⟨hcop, ?_, hmis, ?_, fun _ _ _ => rfl⟩
  · intro events mtime hpos h
    rw [hcop events mtime h]
    unfold goZeroTimeMillis
    constructor <;> omega
  · intro mtime hpos
    rw [hmis mtime]
    unfold goZeroTimeMillis
    constructor <;> omega

/-- Counterexample to claim C7 as stated: an opencode legacy session record
that omits its native creation time (Go zero value 0) is listed with the
Unix epoch as its timestamp — the file's modification time is never
consulted by this listing path. -/
theorem C7_counterexample_opencode_epoch :
    (listProjectSessions "/w"
        [⟨"/w/ses_x.json", some ⟨"ses_x", "title", 0⟩, "", 0⟩]).map Session.timestamp =
      [0] := by
  decide

/-- Witness for C7 at a concrete session with no parseable start time. -/
theorem C7_timestamp_fallback_corrected_witness :
    hasParsedSessionStart [CopilotEvent.userMessage "hi"] = false ∧
      CopilotAdapter.parseSessionMetadataTimestamp [CopilotEvent.userMessage "hi"]
        1700000000000 = 1700000000000 :=
  ⟨by decide,
    C7_timestamp_fallback_corrected.1 [CopilotEvent.userMessage "hi"] 1700000000000 (by decide)⟩

/-- The copilot metadata loop counts exactly the `user.message` events. -/
theorem copilotUserCount_eq_countP (events : List CopilotEvent) :
    CopilotAdapter.parseSessionMetadataUserCount events =
      events.countP
        (fun e =>
          match e with
          | CopilotEvent.userMessage _ => true
          | _ => false) := by
  unfold CopilotAdapter.parseSessionMetadataUserCount
  suffices hgen : ∀ (l : List CopilotEvent) (n : Nat),
      l.foldl
        (fun n e =>
          match e with
          | CopilotEvent.userMessage _ => n + 1
          | _ => n) n =
        n + l.countP
          (fun e =>
            match e with
            | CopilotEvent.userMessage _ => true
            | _ => false) by
    simpa using hgen events 0
  intro l
  induction l with
  | nil => intro n; simp
  | cons e es ih =>
    intro n
    rw [List.foldl_cons, ih, List.countP_cons]
    cases e <;> simp <;> omega

/-- The mistral metadata loop counts exactly the `"user"`-role messages. -/
theorem mistralUserCount_eq_countP (msgs : List MistralMsg) :
    MistralAdapter.parseSessionMetadataUserCount msgs =
      msgs.countP (fun m => m.role == "user") := by
  unfold MistralAdapter.parseSessionMetadataUserCount
  suffices hgen : ∀ (l : List MistralMsg) (n : Nat),
      l.foldl (fun n m => if m.role = "user" then n + 1 else n) n =
        n + l.countP (fun m => m.role == "user") by
    simpa using hgen msgs 0
  intro l
  induction l with
  | nil => intro n; simp
  | cons m ms ih =>
    intro n
    rw [List.foldl_cons, ih, List.countP_cons]
    by_cases h : m.role = "user" <;> simp [h] <;> omega

/-- The opencode flat-file scan counts exactly the user messages whose
extracted content is non-empty. -/
theorem ocFilesUserCount_eq_countP (files : List (String × Option OCMsgFile)) :
    (OpencodeAdapter.getFirstUserMessageAndCount files).2 =
      files.countP
        (fun f =>
          match f.2 with
          | some m => decide (m.role = "user" ∧ extractMessageContent m.content ≠ "")
          | none => false) := by
  unfold OpencodeAdapter.getFirstUserMessageAndCount
  rw [← List.Perm.countP_eq _ (List.perm_insertionSort fileNameLe files)]
  generalize List.insertionSort fileNameLe files = l
  suffices hgen : ∀ (l : List (String × Option OCMsgFile)) (acc : String × Nat),
      (l.foldl
        (fun acc f =>
          match f.2 with
          | none => acc
          | some msg =>
            if msg.role = "user" then
              let content := extractMessageContent msg.content
              if content ≠ "" then
                (if acc.1 = "" then extractFirstLine content else acc.1, acc.2 + 1)
              else acc
            else acc) acc).2 =
        acc.2 + l.countP
          (fun f =>
            match f.2 with
            | some m => decide (m.role = "user" ∧ extractMessageContent m.content ≠ "")
            | none => false) by
    simpa using hgen l ("", 0)
  intro l
  induction l with
  | nil => intro acc; simp
  | cons f fs ih =>
    intro acc
    rw [List.foldl_cons, ih, List.countP_cons]
    rcases f with ⟨name, parsed⟩
    cases parsed with
    | none => simp
    | some m =>
      by_cases hrole : m.role = "user"
      · by_cases hcontent : extractMessageContent m.content = ""
        · simp [hrole, hcontent]
        · simp [hrole, hcontent]
          omega
      · simp [hrole]

/-- Unfolding of the modelled join on a cons cell. -/
theorem sqliteJoin_cons (m : MsgRow) (ms : List MsgRow) (parts : List PartRow) :
    sqliteJoin (m :: ms) parts =
      ((parts.filter (fun p => p.messageId == m.id)).map (fun p => (m, p))) ++
        sqliteJoin ms parts := rfl

/-- Every joined pair's message row comes from the message list. -/
theorem mem_sqliteJoin_fst {mp : MsgRow × PartRow} {messages : List MsgRow}
    {parts : List PartRow} (h : mp ∈ sqliteJoin messages parts) : mp.1 ∈ messages := by
  induction messages with
  | nil => simp [sqliteJoin] at h
  | cons m ms ih =>
    rw [sqliteJoin_cons] at h
    rcases List.mem_append.mp h with h1 | h2
    · rcases List.mem_map.mp h1 with ⟨p, _, rfl⟩
      exact List.mem_cons_self m ms
    · exact List.mem_cons_of_mem m (ih h2)

/-- Length of the deduplication of a block of equal keys followed by a list
not containing that key. -/
theorem dedup_length_append_const (a : String) (A B : List String)
    (hA : ∀ x ∈ A, x = a) (hB : a ∉ B) :
    (A ++ B).dedup.length = (if A = [] then 0 else 1) + B.dedup.length := by
  induction A with
  | nil => simp
  | cons x xs ih =>
    have hx : x = a := hA x (List.mem_cons_self x xs)
    subst hx
    have hxs : ∀ y ∈ xs, y = x := fun y hy => hA y (List.mem_cons_of_mem x hy)
    by_cases hmem : x ∈ xs ++ B
    · rw [List.cons_append, List.dedup_cons_of_mem hmem, ih hxs]
      have hne : xs ≠ [] := by
        rcases List.mem_append.mp hmem with h | h
        · exact List.ne_nil_of_mem h
        · exact absurd h hB
      simp [hne]
    · have hxs_nil : xs = [] := by
        cases xs with
        | nil => rfl
        | cons y ys =>
          have hy : y = x := hxs y (List.mem_cons_self y ys)
          exact absurd (List.mem_append_left B
            (show x ∈ y :: ys by rw [← hy] at *; exact List.mem_cons_self y ys)) hmem
      subst hxs_nil
      rw [List.cons_append, List.dedup_cons_of_not_mem hmem]
      simp
      omega

/-- The `COUNT(DISTINCT m.id)` of the sqlite count query counts exactly the
session's user messages that own at least one non-empty-after-trim text
part, provided message ids are distinct (they are a primary key). -/
theorem sqliteUserCount_eq_countP (messages : List MsgRow) (parts : List PartRow)
    (sid : String) (hnodup : (messages.map MsgRow.id).Nodup) :
    OpencodeAdapter.sqliteUserMessageCount messages parts sid =
      messages.countP
        (fun m =>
          m.sessionId == sid && m.role == some "user" &&
            parts.any
              (fun p =>
                p.messageId == m.id && p.typeField == some "text" &&
                  sqlTrimmedTextNonEmpty p.textField)) := by
  revert hnodup
  induction messages with
  | nil => intro _; rfl
  | cons m ms ih =>
    intro hnodup
    rw [List.map_cons, List.nodup_cons] at hnodup
    obtain ⟨hnotmem, hnd⟩ := hnodup
    unfold OpencodeAdapter.sqliteUserMessageCount at ih ⊢
    rw [sqliteJoin_cons, List.filter_append, List.map_append]
    have hA : ∀ x ∈ (((parts.filter (fun p => p.messageId == m.id)).map
        (fun p => (m, p))).filter (sqlitePairPred sid)).map (fun mp => mp.1.id),
        x = m.id := by
      intro x hx
      rcases List.mem_map.mp hx with ⟨mp, hmp, rfl⟩
      rcases List.mem_map.mp (List.mem_of_mem_filter hmp) with ⟨p, _, rfl⟩
      rfl
    have hB : m.id ∉ ((sqliteJoin ms parts).filter (sqlitePairPred sid)).map
        (fun mp => mp.1.id) := by
      intro hx
      rcases List.mem_map.mp hx with ⟨mp, hmp, heq⟩
      have h1 : mp.1 ∈ ms := mem_sqliteJoin_fst (List.mem_of_mem_filter hmp)
      exact hnotmem (heq ▸ List.mem_map_of_mem MsgRow.id h1)
    rw [dedup_length_append_const m.id _ _ hA hB, List.countP_cons, ih hnd]
    by_cases hpred : m.sessionId = sid ∧ m.role = some "user" ∧
        ∃ p ∈ parts, p.messageId = m.id ∧ p.typeField = some "text" ∧
          sqlTrimmedTextNonEmpty p.textField = true
    · obtain ⟨hs, hr, p, hp, h1, h2, h3⟩ := hpred
      have hp1 : p ∈ parts.filter (fun p => p.messageId == m.id) :=
        List.mem_filter.mpr ⟨hp, by simp [h1]⟩
      have hp2 : sqlitePairPred sid (m, p) = true := by
        simp [sqlitePairPred, hs, hr, h2, h3]
      have hp3 : (m, p) ∈ ((parts.filter (fun p => p.messageId == m.id)).map
          (fun p => (m, p))).filter (sqlitePairPred sid) :=
        List.mem_filter.mpr ⟨List.mem_map_of_mem _ hp1, hp2⟩
      have hne : (((parts.filter (fun p => p.messageId == m.id)).map
          (fun p => (m, p))).filter (sqlitePairPred sid)).map (fun mp => mp.1.id) ≠ [] :=
        List.ne_nil_of_mem (List.mem_map_of_mem _ hp3)
      have hrow : (m.sessionId == sid && m.role == some "user" &&
          parts.any
            (fun p =>
              p.messageId == m.id && p.typeField == some "text" &&
                sqlTrimmedTextNonEmpty p.textField)) = true := by
        simp only [Bool.and_eq_true, beq_iff_eq, List.any_eq_true]
        exact ⟨⟨hs, hr⟩, p, hp, by simp [h1, h2, h3]⟩
      rw [if_neg hne, hrow]
      simp
      omega
    · have hAnil : (((parts.filter (fun p => p.messageId == m.id)).map
          (fun p => (m, p))).filter (sqlitePairPred sid)).map (fun mp => mp.1.id) = [] := by
        rw [List.map_eq_nil_iff, List.filter_eq_nil_iff]
        intro mp hmp
        rcases List.mem_map.mp hmp with ⟨p, hpf, rfl⟩
        rcases List.mem_filter.mp hpf with ⟨hpmem, hpid⟩
        intro hF
        apply hpred
        simp only [sqlitePairPred, Bool.and_eq_true, beq_iff_eq] at hF
        obtain ⟨⟨⟨hs, hr⟩, h2⟩, h3⟩ := hF
        exact ⟨hs, hr, p, hpmem, by simpa using hpid, h2, h3⟩
      have hrow : (m.sessionId == sid && m.role == some "user" &&
          parts.any
            (fun p =>
              p.messageId == m.id && p.typeField == some "text" &&
                sqlTrimmedTextNonEmpty p.textField)) = false := by
        by_contra hcon
        rw [Bool.not_eq_false] at hcon
        apply hpred
        simp only [Bool.and_eq_true, beq_iff_eq, List.any_eq_true] at hcon
        obtain ⟨⟨hs, hr⟩, p, hp, hrest⟩ := hcon
        exact ⟨hs, hr, p, hp, hrest.1.1, hrest.1.2, hrest.2⟩
      rw [hAnil, hrow]
      simp

/-- Claim C8 (corrected): the opencode backends count exactly the user
messages with non-empty-after-trimming text content (the flat-file scan via
the extracted content, the sqlite query via a non-empty trimmed text part,
given distinct message ids); the copilot and mistral adapters instead count
every parsed user message, regardless of its content. -/
theorem C8_user_message_count_corrected :
    (∀ events : List CopilotEvent,
        CopilotAdapter.parseSessionMetadataUserCount events =
          events.countP
            (fun e =>
              match e with
              | CopilotEvent.userMessage _ => true
              | _ => false))
    ∧ (∀ msgs : List MistralMsg,
        MistralAdapter.parseSessionMetadataUserCount msgs =
          msgs.countP (fun m => m.role == "user"))
    ∧ (∀ files : List (String × Option OCMsgFile),
        (OpencodeAdapter.getFirstUserMessageAndCount files).2 =
          files.countP
            (fun f =>
              match f.2 with
              | some m => decide (m.role = "user" ∧ extractMessageContent m.content ≠ "")
              | none => false))
    ∧ (∀ (messages : List MsgRow) (parts : List PartRow) (sid : String),
        (messages.map MsgRow.id).Nodup →
        OpencodeAdapter.sqliteUserMessageCount messages parts sid =
          messages.countP
            (fun m =>
              m.sessionId == sid && m.role == some "user" &&
                parts.any
                  (fun p =>
                    p.messageId == m.id && p.typeField == some "text" &&
                      sqlTrimmedTextNonEmpty p.textField))) :=
  ⟨copilotUserCount_eq_countP, mistralUserCount_eq_countP, ocFilesUserCount_eq_countP,
    fun messages parts sid hnodup => sqliteUserCount_eq_countP messages parts sid hnodup⟩

/-- Counterexample to claim C8 as stated: a copilot session whose single
user message is all whitespace gets `UserMessageCount = 1`, while the number
of user messages with non-empty content after trimming is `0`. -/
theorem C8_counterexample_blank_user_message :
    CopilotAdapter.parseSessionMetadataUserCount [CopilotEvent.userMessage " "] = 1 ∧
      specCopilotNonEmptyUserCount [CopilotEvent.userMessage " "] = 0 := by
  constructor
  · rfl
  · decide

/-- Witness for C8 at a concrete message table with distinct ids. -/
theorem C8_user_message_count_corrected_witness :
    (([⟨"m1", "s", 1, some "user"⟩, ⟨"m2", "s", 2, some "assistant"⟩] :
        List MsgRow).map MsgRow.id).Nodup ∧
      OpencodeAdapter.sqliteUserMessageCount
          [⟨"m1", "s", 1, some "user"⟩, ⟨"m2", "s", 2, some "assistant"⟩]
          [⟨"p1", "m1", 1, some "text", some "hello"⟩] "s" =
        ([⟨"m1", "s", 1, some "user"⟩, ⟨"m2", "s", 2, some "assistant"⟩] :
            List MsgRow).countP
          (fun m =>
            m.sessionId == "s" && m.role == some "user" &&
              ([⟨"p1", "m1", 1, some "text", some "hello"⟩] : List PartRow).any
                (fun p =>
                  p.messageId == m.id && p.typeField == some "text" &&
                    sqlTrimmedTextNonEmpty p.textField)) :=
  ⟨by decide,
    C8_user_message_count_corrected.2.2.2
      [⟨"m1", "s", 1, some "user"⟩, ⟨"m2", "s", 2, some "assistant"⟩]
      [⟨"p1", "m1", 1, some "text", some "hello"⟩] "s" (by decide)⟩

/-- Claim C9: `IndexSession` is idempotent — indexing identical input twice
leaves the queryable cache exactly equal, so every subsequent search returns
identical scores and snippets after one and after two invocations. -/
theorem C9_index_session_idempotent :
    ∀ (cache : Cache) (s : Session) (fullText : String),
      Cache.IndexSession (Cache.IndexSession cache s fullText) s fullText =
        Cache.IndexSession cache s fullText
      ∧ ∀ (query sourceFilter projectFilter : String) (limit : Int),
          Cache.Search (Cache.IndexSession (Cache.IndexSession cache s fullText) s fullText)
              query sourceFilter projectFilter limit =
            Cache.Search (Cache.IndexSession cache s fullText) query sourceFilter
              projectFilter limit := by
  intro cache s fullText
  have h1 : Cache.IndexSession (Cache.IndexSession cache s fullText) s fullText =
      Cache.IndexSession cache s fullText := by
    unfold Cache.IndexSession
    simp [List.filter_filter]
  exact ⟨h1, fun q sf pf lim => by rw [h1]⟩

/-- Counterexample to claim C10 as stated: the `get_session` tool handler
leaves a negative page size unchanged — it only rewrites a page size equal
to zero to the default 20. -/
theorem C10_counterexample_handler_page_size :
    (getSessionToolPageArgs 0 (-1)).2 = -1 ∧ ((-1 : Int) ≠ 20) := by decide

/-- Claim C10 (corrected): `OpencodeAdapter.GetSessionPage` clamps a negative
page to 0 and any page size `≤ 0` to 20 before invoking either backend, so
`resolvePage` always divides by a page size of at least 1 (never 0); the
`get_session` tool handler clamps a negative page to 0 but rewrites only a
page size *equal to zero* to 20, passing other page sizes through. -/
theorem C10_normalization_corrected :
    (∀ page : Int, 0 ≤ normalizePageArg page)
    ∧ (∀ pageSize : Int, 1 ≤ normalizePageSizeArg pageSize ∧ normalizePageSizeArg pageSize ≠ 0)
    ∧ (∀ (sessionID : String) (page pageSize : Int) (fromEnd : Bool)
        (fileBackend : String → Int → Int → Bool → Except String GetPageResult),
        OpencodeAdapter.GetSessionPage sessionID page pageSize fromEnd
          (fun _ p s _ => .ok ([], p, s, true)) fileBackend =
          .ok ([], normalizePageArg page, normalizePageSizeArg pageSize, true))
    ∧ (∀ page pageSize : Int, (getSessionToolPageArgs page pageSize).1 = normalizePageArg page)
    ∧ (∀ page : Int, (getSessionToolPageArgs page 0).2 = 20)
    ∧ (∀ page pageSize : Int, pageSize ≠ 0 →
        (getSessionToolPageArgs page pageSize).2 = pageSize) := by
  refine ⟨?_, ?_, ?_, ?_, ?_, ?_⟩
  · intro page
    unfold normalizePageArg
    split <;> omega
  · intro pageSize
    unfold normalizePageSizeArg
    constructor
    · split <;> omega
    · split <;> omega
  · intro sid p s fe g
    rfl
  · intro p s
    rfl
  · intro p
    simp [getSessionToolPageArgs]
  · intro p s h
    unfold getSessionToolPageArgs
    dsimp only
    rw [if_neg h]

/-- Witness for C10 at a concrete non-zero page size. -/
theorem C10_normalization_corrected_witness :
    ((7 : Int) ≠ 0) ∧ (getSessionToolPageArgs 3 7).2 = 7 :=
  ⟨by decide, C10_normalization_corrected.2.2.2.2.2 3 7 (by decide)⟩
